import Mathlib

/-!
# PanelBase extension managers — shallow embedding

Verification development for the PanelBase extension lifecycle code
(themes, plugins, commands managers plus the shared configuration state
store).  Each Go function that the claims touch is translated into an
executable Lean definition; filesystem and network effects are made
explicit as an event trace and an environment record.  Machine details
that the Go standard library hides (URL parsing, JSON text) are modelled
by small executable functions covering exactly the behaviour the managers
rely on, with remarks at the definition site.

Modelling conventions:
* Go `map[string]T` values become association lists `List (String × T)`;
  the scan loops of the managers become `find?` over the list.
* Filesystem writes/removals and state-file saves become `FsEvent`
  values collected in execution order.
* HTTP downloads are resolved through a `DlEnv` environment giving the
  response status and the SHA-256 of the delivered body per URL; the
  modelled world has no spurious I/O failures (mkdir/create/write
  succeed), matching the scenarios the claims quantify over.
-/

namespace PanelBase

/-! ## Small string helpers mirroring the Go standard library calls

These re-implement the handful of `strings`/`filepath` calls the
managers make directly over the character list, so that every definition
in this file evaluates inside the kernel. -/

/-- Whitespace in the sense of `strings.TrimSpace` (ASCII cases, which is
all the manifests exercise). -/
def isGoSpace (c : Char) : Bool :=
  c == ' ' || c == '\t' || c == '\n' || c == '\r' ||
    c == Char.ofNat 11 || c == Char.ofNat 12

/-- Mirrors `strings.TrimSpace`. -/
def goTrimSpace (s : String) : String :=
  String.mk (((s.data.dropWhile isGoSpace).reverse.dropWhile isGoSpace).reverse)

/-- Mirrors `strings.ToLower` on the ASCII strings (hex sums, URL
schemes) the managers feed it. -/
def goToLower (s : String) : String :=
  String.mk (s.data.map (fun c =>
    if 'A' ≤ c ∧ c ≤ 'Z' then Char.ofNat (c.toNat + 32) else c))

/-- Mirrors `strings.HasPrefix`. -/
def goHasPrefixStr (s pre : String) : Bool :=
  s.data.take pre.data.length == pre.data

/-- Byte-wise (here: character-wise, identical on ASCII) lexicographic
string order, as Go's `<` on strings. -/
def goStringLtList : List Char → List Char → Bool
  | [], [] => false
  | [], _ :: _ => true
  | _ :: _, [] => false
  | a :: as, b :: bs =>
    if a.toNat < b.toNat then true
    else if b.toNat < a.toNat then false
    else goStringLtList as bs

def goStringLt (a b : String) : Bool := goStringLtList a.data b.data

/-- Mirrors `strings.ContainsAny(key, string(os.PathSeparator)+"/\\")` on a
Unix host, where `os.PathSeparator` is also a slash. -/
def containsPathSep (key : String) : Bool :=
  key.data.any (fun c => c == '/' || c == '\\')

/-- A lowercase hexadecimal digit. -/
def isLowerHexDigit (c : Char) : Bool :=
  (decide ('a' ≤ c) && decide (c ≤ 'f')) || (decide ('0' ≤ c) && decide (c ≤ '9'))

/-- Mirrors `regexp.MatchString("^[a-f0-9]{64}$", strings.ToLower(sum))` from
`validateStructureContent`: note the Go code lowercases the sum before
matching. -/
def sumFormatOk (sum : String) : Bool :=
  let t := goToLower sum
  t.data.length == 64 && t.data.all isLowerHexDigit

/-- Mirrors `strings.EqualFold` restricted to the ASCII hex strings the
checksum comparison feeds it. -/
def equalFold (a b : String) : Bool :=
  goToLower a == goToLower b

/-! ## URL parsing (model of the `net/url` fragment the managers use)

The managers call `url.ParseRequestURI` / `url.Parse` only to (a) decide
whether a source string is a remote `http`/`https` URL and (b) check that
manifest and asset URLs have a scheme and a host.  The model below
reproduces `net/url.parse(raw, viaRequest=true)` for exactly those
observations: scheme splitting, the rooted-path requirement for
scheme-less request URIs, and host extraction from a `//authority`
prefix.  Escape processing and port/userinfo validation are outside what
the code observes and are not modelled. -/

structure GoURL where
  scheme : String
  host : String
  rest : String
  deriving Repr, DecidableEq

inductive SchemeSplit where
  | found (scheme : String) (rest : List Char)
  | noScheme
  | malformed
  deriving Repr, DecidableEq

/-- Mirrors `net/url.getScheme`: scan for a `:` preceded by a valid scheme
(first character alphabetic, then alphanumeric or `+ - .`); a leading `:`
is an error, any other non-scheme character means the string has no
scheme. -/
def getScheme : List Char → List Char → SchemeSplit
  | [], _ => .noScheme
  | c :: rest, acc =>
    if c == ':' then
      if acc.isEmpty then .malformed
      else .found (String.mk acc.reverse) rest
    else if c.isAlpha then getScheme rest (c :: acc)
    else if c.isDigit || c == '+' || c == '-' || c == '.' then
      if acc.isEmpty then .noScheme else getScheme rest (c :: acc)
    else .noScheme

/-- Take characters until one of the terminators, returning the prefix. -/
def takeUntil (stop : Char → Bool) : List Char → List Char
  | [] => []
  | c :: rest => if stop c then [] else c :: takeUntil stop rest

/-- Host portion of an authority: the part after the last `@`. -/
def hostOfAuthority (auth : List Char) : List Char :=
  match auth.reverse.takeWhile (fun c => c != '@') with
  | h => h.reverse

/-- Model of `url.ParseRequestURI`.  Returns `none` exactly when the Go
call returns a non-nil error on the inputs the managers can produce:
empty strings, control characters, a leading `:`, and scheme-less strings
that are not rooted paths. -/
def parseRequestURI (s : String) : Option GoURL :=
  if s == "" then none
  else if s.data.any (fun c => c.toNat < 32 || c.toNat == 127) then none
  else
    match getScheme s.data [] with
    | .malformed => none
    | .noScheme =>
      if goHasPrefixStr s "/" then some { scheme := "", host := "", rest := s }
      else none
    | .found sch rest =>
      let sch := goToLower sch
      if rest.take 2 == ['/', '/'] then
        let afterSlashes := rest.drop 2
        let auth := takeUntil (fun c => c == '/' || c == '?' || c == '#') afterSlashes
        some { scheme := sch, host := String.mk (hostOfAuthority auth),
               rest := String.mk (afterSlashes.drop auth.length) }
      else
        some { scheme := sch, host := "", rest := String.mk rest }

/-- Go `u.IsAbs()`: the URL has a non-empty scheme. -/
def GoURL.isAbs (u : GoURL) : Bool := u.scheme != ""

/-- The classification both `fetchThemeYAML` and `fetchPluginYAML` perform:
the source is remote iff it parses and its scheme is `http` or `https`. -/
def sourceIsHTTP (s : String) : Bool :=
  match parseRequestURI s with
  | some u => u.scheme == "http" || u.scheme == "https"
  | none => false

/-! ## Dynamic structure-tree values

The Go managers decode the manifest `structure` into
`map[string]interface{}` and probe it with type switches.  `GoVal`
reproduces that value universe: strings, nested maps, the `AssetDetail`
struct produced by the theme scanner, and a catch-all for every other
YAML value (numbers, booleans, lists, …).  `GoFields` is the field list
of such a map, in iteration order. -/

mutual

inductive GoVal where
  | str (s : String)
  | assetDetail (url sum : String)
  | obj (fields : GoFields)
  | other

inductive GoFields where
  | nil
  | cons (name : String) (val : GoVal) (rest : GoFields)

end

/-- Field lookup, mirroring `mapItem["url"]`-style probes. -/
def GoFields.lookup : GoFields → String → Option GoVal
  | .nil, _ => none
  | .cons n v rest, key => if n == key then some v else rest.lookup key

def GoFields.isEmpty : GoFields → Bool
  | .nil => true
  | .cons _ _ _ => false

/-! ## Error taxonomy

One constructor per distinct outcome the claims distinguish; the Go code
returns `fmt.Errorf` values whose precise text is not load-bearing except
for the checksum error, which carries the expected and actual sums. -/

inductive Err where
  | validation
  | errorExists
  | errorConflict
  | notFound
  | noSourceLink
  | fetchFailed
  | downloadFailed (url : String)
  | checksumMismatch (expected actual : String)
  | invalidType
  | invalidName
  deriving Repr, DecidableEq

/-! ## Theme manifest validation (`themes/types.go`) -/

structure AuthorDetail where
  name : String
  email : String
  url : String
  deriving Repr, DecidableEq

structure ThemeMetadata where
  name : String
  authors : List AuthorDetail
  version : String
  description : String
  sourceLink : String
  structureTree : GoFields
  installedAt : String
  lastUpdatedAt : String

/-- The per-asset checks of `validateStructureContent`: URL non-empty,
parses, has a scheme, has a host unless the scheme is `file`; sum
non-empty and 64 hex characters after lowercasing. -/
def validateAssetChecks (url sum : String) : Except Err Unit :=
  if goTrimSpace url == "" then .error .validation
  else
    match parseRequestURI url with
    | none => .error .validation
    | some parsed =>
      if parsed.scheme == "" then .error .validation
      else if parsed.scheme != "file" && parsed.host == "" then .error .validation
      else if goTrimSpace sum == "" then .error .validation
      else if !sumFormatOk sum then .error .validation
      else .ok ()

/-- The name checks applied to every key of the structure tree. -/
def validateStructureKey (key : String) : Except Err Unit :=
  if goTrimSpace key == "" then .error .validation
  else if containsPathSep key || key == "." || key == ".." then .error .validation
  else .ok ()

mutual

/-- Value dispatch of `themes.validateStructureContent`: a nested map
with string `url` and `sum` fields is an asset, a nested map without
them (or with non-string values under those keys) is a subdirectory,
strings and all other values are type errors. -/
def validateStructureValue : GoVal → Except Err Unit
  | .assetDetail url sum => validateAssetChecks url sum
  | .obj fields =>
    match fields.lookup "url", fields.lookup "sum" with
    | some (.str url), some (.str sum) => validateAssetChecks url sum
    | some _, some _ => validateStructureContent fields
    | _, _ => validateStructureContent fields
  | .str _ => .error .invalidType
  | .other => .error .invalidType

/-- Mirrors `themes.validateStructureContent`: recursive walk over the
dynamic map, checking every name and every value. -/
def validateStructureContent : GoFields → Except Err Unit
  | .nil => .ok ()
  | .cons key v rest =>
    match validateStructureKey key with
    | .error e => .error e
    | .ok () =>
      match validateStructureValue v with
      | .error e => .error e
      | .ok () => validateStructureContent rest

end

/-- Mirrors `ThemeMetadata.Validate`. -/
def ThemeMetadata.Validate (m : ThemeMetadata) : Except Err Unit :=
  if goTrimSpace m.name == "" then .error .validation
  else if m.authors.isEmpty then .error .validation
  else if m.authors.any (fun a => goTrimSpace a.name == "") then .error .validation
  else if goTrimSpace m.version == "" then .error .validation
  else if goTrimSpace m.description == "" then .error .validation
  else if goTrimSpace m.sourceLink == "" then .error .validation
  else
    match parseRequestURI m.sourceLink with
    | none => .error .validation
    | some parsed =>
      if parsed.scheme != "http" && parsed.scheme != "https" then .error .validation
      else if m.structureTree.isEmpty then .error .validation
      else validateStructureContent m.structureTree

/-! ## Plugin manifest validation (`plugins/types.go`) -/

structure EndpointConfig where
  methods : List String
  description : String
  deriving Repr, DecidableEq

structure PluginMetadata where
  name : String
  authors : List String
  version : String
  description : String
  sourceLink : String
  apiVersion : String
  structureTree : GoFields
  dependencies : List (String × String)
  endpoints : List (String × EndpointConfig)

mutual

/-- Value dispatch of `validatePluginStructureContent`: leaves are plain
URL strings, nested maps are subdirectories, anything else is a type
error. -/
def validatePluginStructureValue : GoVal → Except Err Unit
  | .str url =>
    if goTrimSpace url == "" then .error .validation
    else
      match parseRequestURI url with
      | none => .error .validation
      | some _ => .ok ()
  | .obj fields => validatePluginStructureContent fields
  | .assetDetail _ _ => .error .invalidType
  | .other => .error .invalidType

/-- Mirrors `validatePluginStructureContent`. -/
def validatePluginStructureContent : GoFields → Except Err Unit
  | .nil => .ok ()
  | .cons key v rest =>
    match validateStructureKey key with
    | .error e => .error e
    | .ok () =>
      match validatePluginStructureValue v with
      | .error e => .error e
      | .ok () => validatePluginStructureContent rest

end

/-- Mirrors `PluginMetadata.Validate`. -/
def PluginMetadata.Validate (m : PluginMetadata) : Except Err Unit :=
  if goTrimSpace m.name == "" then .error .validation
  else if m.authors.isEmpty then .error .validation
  else if m.authors.any (fun a => goTrimSpace a == "") then .error .validation
  else if goTrimSpace m.version == "" then .error .validation
  else if goTrimSpace m.description == "" then .error .validation
  else if goTrimSpace m.sourceLink == "" then .error .validation
  else
    match parseRequestURI m.sourceLink with
    | none => .error .validation
    | some _ =>
      if goTrimSpace m.apiVersion == "" then .error .validation
      else if m.structureTree.isEmpty then .error .validation
      else
        match validatePluginStructureContent m.structureTree with
        | .error e => .error e
        | .ok () =>
          if m.endpoints.any (fun (p, _) => goTrimSpace p == "" || !goHasPrefixStr p "/") then
            .error .validation
          else if m.endpoints.any (fun (_, c) => c.methods.isEmpty) then .error .validation
          else if m.endpoints.any (fun (_, c) => c.methods.any (fun s => goTrimSpace s == "")) then
            .error .validation
          else if m.dependencies.any (fun (k, v) => goTrimSpace k == "" || goTrimSpace v == "") then
            .error .validation
          else .ok ()

/-! ## Effects, state entries and shared helpers -/

/-- One filesystem-or-state mutation step, recorded in execution order.
`saveState` is a write of the kind's JSON state file. -/
inductive FsEvent where
  | mkdirAll (path : String)
  | writeFile (path : String)
  | removeFile (path : String)
  | removeDirAll (path : String)
  | saveState
  deriving Repr, DecidableEq

/-- Outcome of running one manager operation: the returned value or
error, the trace of mutation events, and the final persisted state map. -/
structure RunResult (α σ : Type) where
  res : Except Err α
  events : List FsEvent
  state : σ

/-- Row of `configs/themes.json`. -/
structure InstalledThemeEntry where
  thmID : String
  name : String
  version : String
  sourceLink : String
  installedAt : String
  lastUpdatedAt : String
  deriving Repr, DecidableEq

/-- Row of `configs/plugins.json`. -/
structure InstalledPluginEntry where
  plgID : String
  name : String
  version : String
  sourceLink : String
  deriving Repr, DecidableEq

/-- Row of `configs/commands.json`. -/
structure InstalledCommandEntry where
  filename : String
  name : String
  version : String
  sourceLink : String
  deriving Repr, DecidableEq

def ThemeState := List (String × InstalledThemeEntry)
def PluginState := List (String × InstalledPluginEntry)
def CommandState := List (String × InstalledCommandEntry)

/-- Go map update `st[k] = v`. -/
def insertEntry {β : Type} : List (String × β) → String → β → List (String × β)
  | [], k, v => [(k, v)]
  | (k2, v2) :: rest, k, v =>
    if k2 == k then (k, v) :: rest else (k2, v2) :: insertEntry rest k v

/-- Go map deletion `delete(st, k)`. -/
def eraseEntry {β : Type} : List (String × β) → String → List (String × β)
  | [], _ => []
  | (k2, v2) :: rest, k => if k2 == k then rest else (k2, v2) :: eraseEntry rest k

/-- The scan loop shared by `_determineInstallAction` and `InstallPlugin`:
find an installed entry with exactly the manifest's source link and
version. -/
def findExactTheme (st : ThemeState) (sourceLink version : String) :
    Option (String × InstalledThemeEntry) :=
  st.find? (fun p => p.2.sourceLink == sourceLink && p.2.version == version)

def findExactPlugin (st : PluginState) (sourceLink version : String) :
    Option (String × InstalledPluginEntry) :=
  st.find? (fun p => p.2.sourceLink == sourceLink && p.2.version == version)

/-- Download environment: HTTP status and the SHA-256 (lowercase hex, as
`hex.EncodeToString` produces) of the body served for each resolved URL. -/
structure DlEnv where
  statusOK : String → Bool
  bodySum : String → String

/-- Mirrors `filepath.Dir`: everything before the final separator. -/
def dirOf (p : String) : String :=
  String.mk (((p.data.reverse.dropWhile (fun c => c != '/')).drop 1).reverse)

/-- Mirrors `filepath.Base`: everything after the final separator. -/
def baseName (p : String) : String :=
  String.mk ((p.data.reverse.takeWhile (fun c => c != '/')).reverse)

/-- Model of `url.Parse` (viaRequest = false): like `parseRequestURI` but
relative references are accepted. -/
def parseURL (s : String) : Option GoURL :=
  if s.data.any (fun c => c.toNat < 32 || c.toNat == 127) then none
  else
    match getScheme s.data [] with
    | .malformed => none
    | .noScheme =>
      if s.data.take 2 == ['/', '/'] then
        let afterSlashes := s.data.drop 2
        let auth := takeUntil (fun c => c == '/' || c == '?' || c == '#') afterSlashes
        some { scheme := "", host := String.mk (hostOfAuthority auth),
               rest := String.mk (afterSlashes.drop auth.length) }
      else some { scheme := "", host := "", rest := s }
    | .found sch rest =>
      let sch := goToLower sch
      if rest.take 2 == ['/', '/'] then
        let afterSlashes := rest.drop 2
        let auth := takeUntil (fun c => c == '/' || c == '?' || c == '#') afterSlashes
        some { scheme := sch, host := String.mk (hostOfAuthority auth),
               rest := String.mk (afterSlashes.drop auth.length) }
      else some { scheme := sch, host := "", rest := String.mk rest }

/-- Stand-in for `baseURL.ResolveReference(ref)`: produces the canonical
name under which the environment serves the asset.  The managers never
inspect the resolved string, so RFC 3986 path merging is not reproduced;
only injectivity per (base, ref) pair matters and holds trivially. -/
def resolveReference (base : GoURL) (ref : String) : String :=
  base.scheme ++ "://" ++ base.host ++ "/" ++ ref

/-! ## Theme manager (`themes/` in the source)

`downloadAndSaveStructure` walks the dynamic structure map; each asset is
downloaded, written, re-read, hashed and compared (`strings.EqualFold`)
against the declared sum; a mismatch removes the partly-written file and aborts
the whole walk with an error carrying expected and actual sums. -/

/-- Resolve one theme asset URL the way `downloadAndSaveStructure` does:
parse it, and make it absolute against the base URL when it is relative
and a base exists. -/
def resolveThemeAssetURL (baseURL : Option GoURL) (url : String) : Option String :=
  match baseURL with
  | some base =>
    match parseURL url with
    | none => none
    | some parsed => some (if parsed.isAbs then url else resolveReference base url)
  | none => some url

/-- One asset step of the theme walk: status check, parent-directory
creation, file write, checksum verification with cleanup of the bad file. -/
def themeAssetStep (env : DlEnv) (savePath : String) (baseURL : Option GoURL)
    (url sum : String) : Except Err Unit × List FsEvent :=
  match resolveThemeAssetURL baseURL url with
  | none => (.error (.downloadFailed url), [])
  | some resolved =>
    if !env.statusOK resolved then (.error (.downloadFailed resolved), [])
    else
      let evs := [FsEvent.mkdirAll (dirOf savePath), FsEvent.writeFile savePath]
      let calculated := env.bodySum resolved
      if !equalFold calculated sum then
        (.error (.checksumMismatch sum calculated), evs ++ [FsEvent.removeFile savePath])
      else (.ok (), evs)

mutual

/-- Item dispatch of `ThemeManager.downloadAndSaveStructure`.  The
dynamic-map probing (string `url`+`sum` fields mean asset, otherwise
subdirectory) matches the Go type switch, including the
wrong-typed-asset fallback that treats the map as a subdirectory. -/
def themeDownloadItem (env : DlEnv) (savePath : String) (baseURL : Option GoURL) :
    GoVal → Except Err Unit × List FsEvent
  | .assetDetail url sum => themeAssetStep env savePath baseURL url sum
  | .obj sub =>
    match sub.lookup "url", sub.lookup "sum" with
    | some (.str url), some (.str sum) => themeAssetStep env savePath baseURL url sum
    | some _, some _ =>
      let r := downloadAndSaveStructure env savePath sub baseURL
      (r.1, FsEvent.mkdirAll savePath :: r.2)
    | _, _ =>
      let r := downloadAndSaveStructure env savePath sub baseURL
      (r.1, FsEvent.mkdirAll savePath :: r.2)
  | .str _ => (.error .invalidType, [])
  | .other => (.error .invalidType, [])

/-- Mirrors `ThemeManager.downloadAndSaveStructure`: process the items in
order, stopping at the first error. -/
def downloadAndSaveStructure (env : DlEnv) (baseSavePath : String)
    (fields : GoFields) (baseURL : Option GoURL) : Except Err Unit × List FsEvent :=
  match fields with
  | .nil => (.ok (), [])
  | .cons name v rest =>
    match themeDownloadItem env (baseSavePath ++ "/" ++ name) baseURL v with
    | (.error e, evs) => (.error e, evs)
    | (.ok (), evs) =>
      let r := downloadAndSaveStructure env baseSavePath rest baseURL
      (r.1, evs ++ r.2)

end

inductive ActionType where
  | installNew
  | overwrite
  | errorExists
  | errorConflict
  deriving Repr, DecidableEq

/-- Mirrors `_determineInstallAction`: an exact `(sourceLink, version)`
match yields `ErrorExists` without force and `Overwrite` (reusing the
matched local ID) with force; otherwise a new install. -/
def determineInstallAction (meta : ThemeMetadata) (force : Bool) (st : ThemeState) :
    Except Err (ActionType × String) :=
  match findExactTheme st meta.sourceLink meta.version with
  | some (localDir, _) =>
    if !force then .error .errorExists else .ok (.overwrite, localDir)
  | none => .ok (.installNew, "")

/-- Per-operation inputs the theme manager draws from its surroundings:
the download environment, the base directory, the ID the generator would
hand out for a new install, and the formatted current time. -/
structure ThemeWorld where
  env : DlEnv
  themeDir : String
  newID : String
  now : String

/-- Mirrors the package-level `themes.Install`: validate, determine the
action, prepare the directory (setting `installedAt`/`lastUpdatedAt`),
download all assets (cleaning up the new directory on failure), write the
local `theme.json`, and save the global state. -/
def themeInstall (w : ThemeWorld) (meta : ThemeMetadata) (force : Bool)
    (st : ThemeState) (baseURL : Option GoURL) : RunResult ThemeMetadata ThemeState :=
  match meta.Validate with
  | .error e => ⟨.error e, [], st⟩
  | .ok () =>
    match determineInstallAction meta force st with
    | .error e => ⟨.error e, [], st⟩
    | .ok (action, targetDir0) =>
      let meta1 := { meta with lastUpdatedAt := w.now }
      let targetDir := if action = .installNew then w.newID else targetDir0
      let path := w.themeDir ++ "/" ++ targetDir
      let meta2 :=
        if action = .installNew then { meta1 with installedAt := w.now }
        else
          match List.lookup targetDir st with
          | some e =>
            if e.installedAt != "" then { meta1 with installedAt := e.installedAt }
            else { meta1 with installedAt := w.now }
          | none => { meta1 with installedAt := w.now }
      let prepEvents :=
        if action = .installNew then [FsEvent.mkdirAll path]
        else [FsEvent.removeDirAll path, FsEvent.mkdirAll path]
      match downloadAndSaveStructure w.env path meta2.structureTree baseURL with
      | (.error e, dlEvents) =>
        if action = .installNew then
          ⟨.error e, prepEvents ++ dlEvents ++ [FsEvent.removeDirAll path], st⟩
        else ⟨.error e, prepEvents ++ dlEvents, st⟩
      | (.ok (), dlEvents) =>
        let entry : InstalledThemeEntry :=
          ⟨targetDir, meta2.name, meta2.version, meta2.sourceLink,
           meta2.installedAt, meta2.lastUpdatedAt⟩
        ⟨.ok meta2,
         prepEvents ++ dlEvents ++
           [FsEvent.writeFile (path ++ "/theme.json"), FsEvent.saveState],
         insertEntry st targetDir entry⟩

/-- Mirrors the package-level `themes.Update`.  `remoteFetch` is the
fetch-and-parse result for the entry's source link (validation is then
applied as in `_fetchAndValidateDefinition`); `localMeta` is the result
of `_loadLocalThemeJSON`, consulted on the two no-op outcomes. -/
def themeUpdate (w : ThemeWorld) (remoteFetch : Except Err ThemeMetadata)
    (localMeta : Except Err ThemeMetadata) (st : ThemeState) (themeID : String)
    (baseURL : Option GoURL) : RunResult ThemeMetadata ThemeState :=
  match List.lookup themeID st with
  | none => ⟨.error .notFound, [], st⟩
  | some entry =>
    if entry.sourceLink == "" then ⟨.error .noSourceLink, [], st⟩
    else
      match remoteFetch with
      | .error e => ⟨.error e, [], st⟩
      | .ok latest0 =>
        match latest0.Validate with
        | .error e => ⟨.error e, [], st⟩
        | .ok () =>
          if entry.version == latest0.version then
            match localMeta with
            | .error e => ⟨.error e, [], st⟩
            | .ok lm => ⟨.ok lm, [], st⟩
          else if goStringLt latest0.version entry.version then
            match localMeta with
            | .error e => ⟨.error e, [], st⟩
            | .ok lm => ⟨.ok lm, [], st⟩
          else
            let latest1 :=
              { latest0 with
                lastUpdatedAt := w.now
                installedAt :=
                  if entry.installedAt != "" then entry.installedAt else w.now }
            let path := w.themeDir ++ "/" ++ themeID
            let prepEvents := [FsEvent.removeDirAll path, FsEvent.mkdirAll path]
            match downloadAndSaveStructure w.env path latest1.structureTree baseURL with
            | (.error e, dlEvents) => ⟨.error e, prepEvents ++ dlEvents, st⟩
            | (.ok (), dlEvents) =>
              let entry2 : InstalledThemeEntry :=
                ⟨themeID, latest1.name, latest1.version, entry.sourceLink,
                 latest1.installedAt, latest1.lastUpdatedAt⟩
              ⟨.ok latest1,
               prepEvents ++ dlEvents ++
                 [FsEvent.writeFile (path ++ "/theme.json"), FsEvent.saveState],
               insertEntry st themeID entry2⟩

/-- Mirrors the package-level `themes.Remove`: the entry is deleted from
the loaded state and the state file saved first
(`_removeEntryFromGlobalState`), then the directory is deleted
(`_deleteThemeDirectory`). -/
def themeRemove (w : ThemeWorld) (st : ThemeState) (themeID : String) :
    RunResult String ThemeState :=
  match List.lookup themeID st with
  | none => ⟨.error .notFound, [], st⟩
  | some entry =>
    ⟨.ok entry.name,
     [FsEvent.saveState, FsEvent.removeDirAll (w.themeDir ++ "/" ++ themeID)],
     eraseEntry st themeID⟩

/-! ## Plugin manager (`plugins/` in the source) -/

structure PluginWorld where
  env : DlEnv
  pluginDir : String
  newID : String

mutual

/-- Item dispatch of `downloadAndSavePluginStructure`: plain-string
leaves are URLs; URL-parse failures, transport errors and non-200
statuses are logged and skipped (the walk continues), while an
unexpected value type aborts with an error.  No checksum is verified for
plugins. -/
def pluginDownloadItem (env : DlEnv) (savePath : String) (baseURL : Option GoURL)
    (isLocalSource : Bool) : GoVal → Except Err Unit × List FsEvent
  | .str fileURL =>
    let resolved : Option String :=
      match baseURL with
      | some base =>
        match parseURL fileURL with
        | none => none
        | some parsed =>
          some (if parsed.isAbs then fileURL else resolveReference base fileURL)
      | none =>
        match parseRequestURI fileURL with
        | none => none
        | some _ => some fileURL
    match resolved with
    | none => (.ok (), [])
    | some u =>
      if !env.statusOK u then (.ok (), [])
      else (.ok (), [FsEvent.mkdirAll (dirOf savePath), FsEvent.writeFile savePath])
  | .obj sub =>
    let r := downloadAndSavePluginStructure env savePath sub baseURL isLocalSource
    (r.1, FsEvent.mkdirAll savePath :: r.2)
  | .assetDetail _ _ => (.error .invalidType, [])
  | .other => (.error .invalidType, [])

/-- Mirrors `downloadAndSavePluginStructure`. -/
def downloadAndSavePluginStructure (env : DlEnv) (baseSavePath : String)
    (fields : GoFields) (baseURL : Option GoURL) (isLocalSource : Bool) :
    Except Err Unit × List FsEvent :=
  match fields with
  | .nil => (.ok (), [])
  | .cons name v rest =>
    match pluginDownloadItem env (baseSavePath ++ "/" ++ name) baseURL isLocalSource v with
    | (.error e, evs) => (.error e, evs)
    | (.ok (), evs) =>
      let r := downloadAndSavePluginStructure env baseSavePath rest baseURL isLocalSource
      (r.1, evs ++ r.2)

end

/-- Mirrors `PluginManager.InstallPlugin` after fetch and parse: validate,
scan the state for an exact `(sourceLink, version)` match, abort with the
already-exists error without force, otherwise remove-and-recreate (force)
or create a fresh directory, download the structure (removing the new
directory on failure), write `plugin.yaml`, and save the state. -/
def pluginInstall (w : PluginWorld) (meta : PluginMetadata) (force : Bool)
    (st : PluginState) (baseURL : Option GoURL) (isLocalSource : Bool) :
    RunResult PluginMetadata PluginState :=
  match meta.Validate with
  | .error e => ⟨.error e, [], st⟩
  | .ok () =>
    if meta.sourceLink == "" then ⟨.error .validation, [], st⟩
    else
      let proceed := fun (action : ActionType) (targetDirName : String) =>
        let path := w.pluginDir ++ "/" ++ targetDirName
        let prepEvents :=
          if action = .overwrite then [FsEvent.removeDirAll path, FsEvent.mkdirAll path]
          else [FsEvent.mkdirAll path]
        match downloadAndSavePluginStructure w.env path meta.structureTree baseURL isLocalSource with
        | (.error e, dlEvents) =>
          if action = .installNew then
            ⟨.error e, prepEvents ++ dlEvents ++ [FsEvent.removeDirAll path], st⟩
          else ⟨.error e, prepEvents ++ dlEvents, st⟩
        | (.ok (), dlEvents) =>
          (⟨.ok meta,
            prepEvents ++ dlEvents ++
              [FsEvent.writeFile (path ++ "/plugin.yaml"), FsEvent.saveState],
            insertEntry st targetDirName
              ⟨targetDirName, meta.name, meta.version, meta.sourceLink⟩⟩ :
            RunResult PluginMetadata PluginState)
      match findExactPlugin st meta.sourceLink meta.version with
      | some (localDir, _) =>
        if !force then ⟨.error .errorExists, [], st⟩
        else proceed .overwrite localDir
      | none => proceed .installNew w.newID

/-- Mirrors `PluginManager.UpdatePlugin`: look the ID up, fetch and
validate the latest manifest from the stored source link, and — whenever
the remote version differs at all from the installed one — overwrite the
plugin directory in place and save the bumped state entry.  Equal
versions return `nil, nil` (modelled as `none`). -/
def pluginUpdate (w : PluginWorld) (remoteFetch : Except Err PluginMetadata)
    (st : PluginState) (pluginID : String) (baseURL : Option GoURL)
    (isLocalSource : Bool) : RunResult (Option PluginMetadata) PluginState :=
  match List.lookup pluginID st with
  | none => ⟨.error .notFound, [], st⟩
  | some entry =>
    match remoteFetch with
    | .error _ => ⟨.error .fetchFailed, [], st⟩
    | .ok latest =>
      match latest.Validate with
      | .error e => ⟨.error e, [], st⟩
      | .ok () =>
        if entry.version == latest.version then ⟨.ok none, [], st⟩
        else
          let path := w.pluginDir ++ "/" ++ pluginID
          let prepEvents := [FsEvent.removeDirAll path, FsEvent.mkdirAll path]
          match downloadAndSavePluginStructure w.env path latest.structureTree baseURL isLocalSource with
          | (.error e, dlEvents) => ⟨.error e, prepEvents ++ dlEvents, st⟩
          | (.ok (), dlEvents) =>
            ⟨.ok (some latest),
             prepEvents ++ dlEvents ++
               [FsEvent.writeFile (path ++ "/plugin.yaml"), FsEvent.saveState],
             insertEntry st pluginID ⟨pluginID, latest.name, latest.version, entry.sourceLink⟩⟩

/-- Mirrors `PluginManager.RemovePlugin`: after the existence check the
plugin directory is removed from disk first, and only then is the entry
deleted from the state map and the state file saved. -/
def pluginRemove (w : PluginWorld) (st : PluginState) (pluginID : String) :
    RunResult Unit PluginState :=
  match List.lookup pluginID st with
  | none => ⟨.error .notFound, [], st⟩
  | some _ =>
    ⟨.ok (),
     [FsEvent.removeDirAll (w.pluginDir ++ "/" ++ pluginID), FsEvent.saveState],
     eraseEntry st pluginID⟩

/-! ## Command manager (`commands/` in the source) -/

structure CommandMetadata where
  command : String
  pkgManagers : List String
  dependencies : List String
  authors : List String
  version : String
  description : String
  sourceLink : String
  filePath : String
  deriving Repr, DecidableEq

/-- Mirrors `CommandMetadata.IsValid`.  The Go `m.Authors != nil` clause
is always true on the install path because `parseCommandMetadataFromBytes`
initialises `Authors` to an empty non-nil slice, so it is modelled as
always satisfied. -/
def CommandMetadata.IsValid (m : CommandMetadata) : Bool :=
  m.command != "" && !m.pkgManagers.isEmpty && m.version != "" &&
    m.description != "" && m.sourceLink != "" && m.filePath != ""

structure CommandWorld where
  commandDir : String

/-- Mirrors `CommandManager.InstallCommand` after fetch and metadata
parse: derive the target filename `command + ".sh"`, reject path
separators in it, and resolve the action against the state map keyed by
filename — exact source+version match gives already-exists (or overwrite
with force); the same filename held by any other source/version
combination is a conflict regardless of force.  Only then is the script
written and the state saved. -/
def commandInstall (w : CommandWorld) (meta : CommandMetadata) (force : Bool)
    (st : CommandState) : RunResult CommandMetadata CommandState :=
  let targetFilename := meta.command ++ ".sh"
  if containsPathSep targetFilename then ⟨.error .invalidName, [], st⟩
  else
    let proceed := fun (_action : ActionType) =>
      let targetFilePath := w.commandDir ++ "/" ++ targetFilename
      let meta1 := { meta with filePath := targetFilePath }
      if !meta1.IsValid then (⟨.error .validation, [], st⟩ : RunResult CommandMetadata CommandState)
      else
        ⟨.ok meta1, [FsEvent.writeFile targetFilePath, FsEvent.saveState],
         insertEntry st targetFilename
           ⟨targetFilename, meta.command, meta.version, meta.sourceLink⟩⟩
    match List.lookup targetFilename st with
    | some existing =>
      if existing.sourceLink == meta.sourceLink && existing.version == meta.version then
        if !force then ⟨.error .errorExists, [], st⟩
        else proceed .overwrite
      else ⟨.error .errorConflict, [], st⟩
    | none => proceed .installNew

/-- Mirrors `CommandManager.RemoveCommand`: the script file is removed
from disk first; the state entry is deleted and the state file saved
afterwards, and only when the filename was present in the state map. -/
def commandRemove (commands : List (String × CommandMetadata)) (st : CommandState)
    (commandName : String) : RunResult Unit CommandState :=
  match List.lookup commandName commands with
  | none => ⟨.error .notFound, [], st⟩
  | some cmeta =>
    let targetFilename := baseName cmeta.filePath
    if (List.lookup targetFilename st).isSome then
      ⟨.ok (), [FsEvent.removeFile cmeta.filePath, FsEvent.saveState],
       eraseEntry st targetFilename⟩
    else ⟨.ok (), [FsEvent.removeFile cmeta.filePath], st⟩

/-! ## Manifest fetch body-size handling

`fetchPluginYAML` wraps the response body in
`io.LimitedReader{N: maxYAMLSize}` and reports an error when the reader's
budget reaches zero; `fetchThemeYAML` and the command fetches call
`io.ReadAll` with no limit.  Modelled on the body length in bytes. -/

def maxYAMLSize : Nat := 1 <<< 20

/-- Body handling of `fetchPluginYAML` for a 200 response of `bodyLen`
bytes: the limited reader delivers at most `maxYAMLSize` bytes and the
fetch fails whenever the budget is exhausted — which happens for every
body of `maxYAMLSize` bytes or more. -/
def fetchPluginYAMLBody (bodyLen : Nat) : Except Err Nat :=
  let readBytes := min bodyLen maxYAMLSize
  if maxYAMLSize - readBytes == 0 then .error .fetchFailed else .ok readBytes

/-- Body handling of `fetchThemeYAML` for a 200 response: plain
`io.ReadAll`, no size cap. -/
def fetchThemeYAMLBody (bodyLen : Nat) : Except Err Nat := .ok bodyLen

/-- Body handling of the command-script fetches (`InstallCommand` /
`fetchCommandScript`) for a 200 response: plain `io.ReadAll`, no size
cap. -/
def fetchCommandScriptBody (bodyLen : Nat) : Except Err Nat := .ok bodyLen

/-! ## State store (`configuration.go`)

`saveState` marshals `{"<kind>": {...entries...}}` with 2-space
indentation and rewrites the whole file; `loadState` tolerates a missing
or empty file, unmarshals into `map[string]map[string]T`, takes the map
under the first top-level key, guards against a `null` inner map, and
falls back to unmarshalling the document directly as `map[string]T`.
The JSON text layer (`json.MarshalIndent` / `json.Unmarshal`) is
modelled by a JSON value tree: indentation and whitespace do not survive
a parse and are not represented. -/

inductive Json where
  | null
  | str (s : String)
  | obj (fields : List (String × Json))
  | other

/-- Encoding of one `InstalledThemeEntry` under Go's struct tags,
including `omitempty` on the two timestamps. -/
def encodeThemeEntry (e : InstalledThemeEntry) : Json :=
  .obj
    ([("thm_id", .str e.thmID), ("name", .str e.name), ("version", .str e.version),
      ("source_link", .str e.sourceLink)] ++
     (if e.installedAt == "" then [] else [("installed_at", .str e.installedAt)]) ++
     (if e.lastUpdatedAt == "" then [] else [("last_updated", .str e.lastUpdatedAt)]))

def encodeThemeMap (m : List (String × InstalledThemeEntry)) : Json :=
  .obj (m.map (fun p => (p.1, encodeThemeEntry p.2)))

/-- Mirrors `SaveThemesState`: wrap the map under the `themes` key and
rewrite the document. -/
def saveThemesState (m : List (String × InstalledThemeEntry)) : Json :=
  .obj [("themes", encodeThemeMap m)]

/-- Read one string field of a JSON object the way `json.Unmarshal` fills
a struct: absent or `null` leaves the zero value, a string sets it, any
other type is an unmarshal error. -/
def getStrField (fields : List (String × Json)) (key : String) : Option String :=
  match List.lookup key fields with
  | none => some ""
  | some .null => some ""
  | some (.str s) => some s
  | some _ => none

def decodeThemeEntry : Json → Option InstalledThemeEntry
  | .obj fields => do
    let thmID ← getStrField fields "thm_id"
    let name ← getStrField fields "name"
    let version ← getStrField fields "version"
    let sourceLink ← getStrField fields "source_link"
    let installedAt ← getStrField fields "installed_at"
    let lastUpdatedAt ← getStrField fields "last_updated"
    pure ⟨thmID, name, version, sourceLink, installedAt, lastUpdatedAt⟩
  | _ => none

def decodeThemeEntries : List (String × Json) → Option (List (String × InstalledThemeEntry))
  | [] => some []
  | (k, v) :: rest => do
    let e ← decodeThemeEntry v
    let es ← decodeThemeEntries rest
    pure ((k, e) :: es)

/-- Unmarshal a JSON value as `map[string]InstalledThemeEntry`; JSON
`null` produces Go's nil map, represented as the inner `none`. -/
def decodeThemeMap : Json → Option (Option (List (String × InstalledThemeEntry)))
  | .null => some none
  | .obj fields => (decodeThemeEntries fields).map some
  | _ => none

def decodeThemeStoreFields :
    List (String × Json) → Option (List (String × Option (List (String × InstalledThemeEntry))))
  | [] => some []
  | (k, v) :: rest => do
    let m ← decodeThemeMap v
    let ms ← decodeThemeStoreFields rest
    pure ((k, m) :: ms)

/-- Unmarshal a JSON value as `map[string]map[string]InstalledThemeEntry`
(`tempStore` in `loadState`); `null` leaves a nil outer map, over which
the extraction loop simply does not run. -/
def decodeThemeStore : Json → Option (List (String × Option (List (String × InstalledThemeEntry))))
  | .null => some []
  | .obj fields => decodeThemeStoreFields fields
  | _ => none

/-- What the state file holds when `loadState` reads it: missing, empty,
or a parsed JSON document (a syntactically malformed file fails the read
before the logic modelled here). -/
inductive StateFileContent where
  | missing
  | empty
  | content (j : Json)

/-- Mirrors `loadState[InstalledThemeEntry]`: a missing or empty file is
an empty map; otherwise unwrap the map under the first top-level key
(guarding a `null` inner map to empty), falling back to reading the
document directly as the entry map. -/
def loadState (file : StateFileContent) : Option (List (String × InstalledThemeEntry)) :=
  match file with
  | .missing => some []
  | .empty => some []
  | .content j =>
    match decodeThemeStore j with
    | some tempStore =>
      match tempStore with
      | [] => some []
      | (_, v) :: _ => some (v.getD [])
    | none =>
      match decodeThemeMap j with
      | some m => some (m.getD [])
      | none => none

/-! ## Derived predicates used to state the claims -/

/-- A filesystem deletion (file or directory). -/
def isDeletionEvent : FsEvent → Bool
  | .removeDirAll _ => true
  | .removeFile _ => true
  | _ => false

/-- Predicate `stateSavedBeforeDeletions seen evs` holds when every deletion event
in `evs` is preceded by a state-file save (`seen` records whether a save
has already happened). -/
def stateSavedBeforeDeletions : Bool → List FsEvent → Bool
  | _, [] => true
  | seen, e :: rest =>
    if e = FsEvent.saveState then stateSavedBeforeDeletions true rest
    else if isDeletionEvent e then seen && stateSavedBeforeDeletions seen rest
    else stateSavedBeforeDeletions seen rest

/-- A structure-tree name the validators are meant to reject: contains a
path separator or is exactly `.` or `..`. -/
def badStructureName (key : String) : Bool :=
  containsPathSep key || key == "." || key == ".."

mutual

/-- Whether a value, under the theme validator's interpretation, contains
an asset leaf whose checksum fails the (case-folded) 64-hex test. -/
def valHasBadSum : GoVal → Bool
  | .str _ => false
  | .assetDetail _ sum => !sumFormatOk sum
  | .obj fields =>
    match fields.lookup "url", fields.lookup "sum" with
    | some (.str _), some (.str sum) => !sumFormatOk sum
    | some _, some _ => fieldsHasBadSum fields
    | _, _ => fieldsHasBadSum fields
  | .other => false

def fieldsHasBadSum : GoFields → Bool
  | .nil => false
  | .cons _ v rest => valHasBadSum v || fieldsHasBadSum rest

end

mutual

/-- Whether a value, under the theme validator's interpretation, contains
a subdirectory level with a bad name (asset leaves have no inner names). -/
def valHasBadName : GoVal → Bool
  | .str _ => false
  | .assetDetail _ _ => false
  | .obj fields =>
    match fields.lookup "url", fields.lookup "sum" with
    | some (.str _), some (.str _) => false
    | some _, some _ => fieldsHasBadName fields
    | _, _ => fieldsHasBadName fields
  | .other => false

def fieldsHasBadName : GoFields → Bool
  | .nil => false
  | .cons k v rest => badStructureName k || valHasBadName v || fieldsHasBadName rest

end

mutual

/-- The plugin-validator analogue of `fieldsHasBadName`: every nested map
is a subdirectory. -/
def pluginValHasBadName : GoVal → Bool
  | .obj fields => pluginFieldsHasBadName fields
  | _ => false

def pluginFieldsHasBadName : GoFields → Bool
  | .nil => false
  | .cons k v rest =>
    badStructureName k || pluginValHasBadName v || pluginFieldsHasBadName rest

end

/-! ## Concrete fixtures used by witnesses and counterexamples -/

/-- A download environment in which every URL serves a body of 200 status
whose SHA-256 is 64 `a` characters. -/
def envAllA : DlEnv :=
  { statusOK := fun _ => true
    bodySum := fun _ => String.mk (List.replicate 64 'a') }

/-- A download environment whose bodies hash to 64 `b` characters. -/
def envAllB : DlEnv :=
  { statusOK := fun _ => true
    bodySum := fun _ => String.mk (List.replicate 64 'b') }

def sumAllA : String := String.mk (List.replicate 64 'a')

/-- A checksum written with uppercase hex digits. -/
def sumUpper : String := "AAAA0000BBBB1111CCCC2222DDDD3333EEEE4444FFFF5555AAAA6666BBBB7777"

def themeWorldFix : ThemeWorld :=
  { env := envAllA
    themeDir := "ext/themes"
    newID := "thm_new01"
    now := "2026-10-11T00:00:00Z" }

def pluginWorldFix : PluginWorld :=
  { env := envAllA
    pluginDir := "ext/plugins"
    newID := "plg_new01" }

/-- A well-formed theme manifest whose single leaf name `index.html`
contains a dot and whose checksum is 64 lowercase `a` characters. -/
def themeMetaDot : ThemeMetadata :=
  { name := "Demo"
    authors := [{ name := "Ann", email := "", url := "" }]
    version := "1.0.0"
    description := "demo theme"
    sourceLink := "https://example.com/theme.yaml"
    structureTree := .cons "index.html"
      (.obj (.cons "url" (.str "https://example.com/index.html")
        (.cons "sum" (.str sumAllA) .nil))) .nil
    installedAt := ""
    lastUpdatedAt := "" }

/-- Same manifest shape with the checksum spelled in uppercase hex. -/
def themeMetaUpper : ThemeMetadata :=
  { themeMetaDot with
    structureTree := .cons "style.css"
      (.obj (.cons "url" (.str "https://example.com/style.css")
        (.cons "sum" (.str sumUpper) .nil))) .nil }

/-- A manifest with a checksum that is too short (not 64 hex characters). -/
def themeMetaShortSum : ThemeMetadata :=
  { themeMetaDot with
    structureTree := .cons "app.css"
      (.obj (.cons "url" (.str "https://example.com/app.css")
        (.cons "sum" (.str "abc123") .nil))) .nil }

/-- A manifest whose structure tree nests a subdirectory named `..`. -/
def themeMetaDotDotDir : ThemeMetadata :=
  { themeMetaDot with
    structureTree := .cons "assets"
      (.obj (.cons ".."
        (.obj (.cons "url" (.str "https://example.com/x") (.cons "sum" (.str sumAllA) .nil)))
        .nil)) .nil }

def sumAllB : String := String.mk (List.replicate 64 'b')

def themeWorldFixB : ThemeWorld :=
  { env := envAllB
    themeDir := "ext/themes"
    newID := "thm_new01"
    now := "2026-10-11T00:00:00Z" }

/-- A manifest whose single leaf is named `a..b` — a name *containing* `..`
without being exactly `..`. -/
def themeMetaDots : ThemeMetadata :=
  { themeMetaDot with
    structureTree := .cons "a..b"
      (.obj (.cons "url" (.str "https://example.com/a.css")
        (.cons "sum" (.str sumAllA) .nil))) .nil }

def entryDemoV1 : InstalledThemeEntry :=
  ⟨"thm_aaa", "Demo", "1.0.0", "https://example.com/theme.yaml",
   "2025-01-01T00:00:00Z", "2025-01-01T00:00:00Z"⟩

def themeStateFix : ThemeState := [("thm_aaa", entryDemoV1)]

def pluginMetaV1 : PluginMetadata :=
  { name := "Tool"
    authors := ["Ann"]
    version := "1.0.0"
    description := "demo plugin"
    sourceLink := "https://example.com/plugin.yaml"
    apiVersion := "v1"
    structureTree := .cons "main.js" (.str "https://example.com/main.js") .nil
    dependencies := []
    endpoints := [] }

/-- A plugin manifest whose structure nests a file name containing `/`. -/
def pluginMetaBadName : PluginMetadata :=
  { pluginMetaV1 with
    structureTree := .cons "dir"
      (.obj (.cons "a/b" (.str "https://example.com/a.js") .nil)) .nil }

def pluginEntryV1 : InstalledPluginEntry :=
  ⟨"plg_aaa", "Tool", "1.0.0", "https://example.com/plugin.yaml"⟩

def pluginEntryV2 : InstalledPluginEntry :=
  ⟨"plg_aaa", "Tool", "2.0.0", "https://example.com/plugin.yaml"⟩

def pluginStateFix : PluginState := [("plg_aaa", pluginEntryV1)]

def pluginStateFixV2 : PluginState := [("plg_aaa", pluginEntryV2)]

def commandMetaFix : CommandMetadata :=
  { command := "backup"
    pkgManagers := ["apt"]
    dependencies := []
    authors := ["Ann"]
    version := "1.0.0"
    description := "demo command"
    sourceLink := "https://example.com/backup.sh"
    filePath := "" }

def commandEntryOther : InstalledCommandEntry :=
  ⟨"backup.sh", "backup", "1.0.0", "https://other.example.org/backup.sh"⟩

def commandStateFix : CommandState := [("backup.sh", commandEntryOther)]

def commandMetaInstalled : CommandMetadata :=
  { commandMetaFix with filePath := "ext/commands/backup.sh" }

def commandsMapFix : List (String × CommandMetadata) :=
  [("backup", commandMetaInstalled)]

def commandStateMatching : CommandState :=
  [("backup.sh", ⟨"backup.sh", "backup", "1.0.0", "https://example.com/backup.sh"⟩)]


theorem validateAssetChecks_ok_sumOk (url sum : String)
    (h : validateAssetChecks url sum = .ok ()) : sumFormatOk sum = true := by
  unfold validateAssetChecks at h
  split_ifs at h <;> try simp at h
  all_goals (try (split at h <;> try (split_ifs at h <;> try simp at h)))
  all_goals simp_all

theorem validateStructureKey_ok_goodName (k : String)
    (h : validateStructureKey k = .ok ()) : badStructureName k = false := by
  unfold validateStructureKey at h
  split_ifs at h with h1 h2 <;> try simp at h
  simpa [badStructureName] using h2

mutual

theorem validateStructureValue_ok_noBadSum (v : GoVal)
    (h : validateStructureValue v = .ok ()) : valHasBadSum v = false := by
  match v with
  | .str s => simp [validateStructureValue] at h
  | .assetDetail url sum =>
    simp only [validateStructureValue] at h
    simp [valHasBadSum, validateAssetChecks_ok_sumOk url sum h]
  | .obj fields =>
    simp only [validateStructureValue] at h
    simp only [valHasBadSum]
    split at h
    next url sum hu hs =>
      simp_all [validateAssetChecks_ok_sumOk url sum h]
    next => simp_all [validateStructureContent_ok_noBadSum fields h]
    next => simp_all [validateStructureContent_ok_noBadSum fields h]
  | .other => simp [validateStructureValue] at h

theorem validateStructureContent_ok_noBadSum (f : GoFields)
    (h : validateStructureContent f = .ok ()) : fieldsHasBadSum f = false := by
  match f with
  | .nil => simp [fieldsHasBadSum]
  | .cons k v rest =>
    simp only [validateStructureContent] at h
    cases hk : validateStructureKey k with
    | error e => rw [hk] at h; simp at h
    | ok u =>
      cases u; rw [hk] at h
      cases hv : validateStructureValue v with
      | error e => rw [hv] at h; simp at h
      | ok u2 =>
        cases u2; rw [hv] at h
        simp only [fieldsHasBadSum, validateStructureValue_ok_noBadSum v hv,
          validateStructureContent_ok_noBadSum rest h, Bool.or_self, Bool.or_false]

end

mutual

theorem validateStructureValue_ok_noBadName (v : GoVal)
    (h : validateStructureValue v = .ok ()) : valHasBadName v = false := by
  match v with
  | .str s => simp [validateStructureValue] at h
  | .assetDetail url sum => simp [valHasBadName]
  | .obj fields =>
    simp only [validateStructureValue] at h
    simp only [valHasBadName]
    split at h
    next => simp
    next => simp_all [validateStructureContent_ok_noBadName fields h]
    next => simp_all [validateStructureContent_ok_noBadName fields h]
  | .other => simp [validateStructureValue] at h

theorem validateStructureContent_ok_noBadName (f : GoFields)
    (h : validateStructureContent f = .ok ()) : fieldsHasBadName f = false := by
  match f with
  | .nil => simp [fieldsHasBadName]
  | .cons k v rest =>
    simp only [validateStructureContent] at h
    cases hk : validateStructureKey k with
    | error e => rw [hk] at h; simp at h
    | ok u =>
      cases u; rw [hk] at h
      cases hv : validateStructureValue v with
      | error e => rw [hv] at h; simp at h
      | ok u2 =>
        cases u2; rw [hv] at h
        simp only [fieldsHasBadName, validateStructureKey_ok_goodName k hk,
          validateStructureValue_ok_noBadName v hv,
          validateStructureContent_ok_noBadName rest h, Bool.or_self, Bool.or_false]

end

mutual

theorem validatePluginStructureValue_ok_noBadName (v : GoVal)
    (h : validatePluginStructureValue v = .ok ()) : pluginValHasBadName v = false := by
  match v with
  | .str s => simp [pluginValHasBadName]
  | .assetDetail url sum => simp [validatePluginStructureValue] at h
  | .obj fields =>
    simp only [validatePluginStructureValue] at h
    simp only [pluginValHasBadName]
    exact validatePluginStructureContent_ok_noBadName fields h
  | .other => simp [validatePluginStructureValue] at h

theorem validatePluginStructureContent_ok_noBadName (f : GoFields)
    (h : validatePluginStructureContent f = .ok ()) : pluginFieldsHasBadName f = false := by
  match f with
  | .nil => simp [pluginFieldsHasBadName]
  | .cons k v rest =>
    simp only [validatePluginStructureContent] at h
    cases hk : validateStructureKey k with
    | error e => rw [hk] at h; simp at h
    | ok u =>
      cases u; rw [hk] at h
      cases hv : validatePluginStructureValue v with
      | error e => rw [hv] at h; simp at h
      | ok u2 =>
        cases u2; rw [hv] at h
        simp only [pluginFieldsHasBadName, validateStructureKey_ok_goodName k hk,
          validatePluginStructureValue_ok_noBadName v hv,
          validatePluginStructureContent_ok_noBadName rest h, Bool.or_self, Bool.or_false]

end

theorem themeValidate_ok_structure (m : ThemeMetadata)
    (h : m.Validate = .ok ()) : validateStructureContent m.structureTree = .ok () := by
  unfold ThemeMetadata.Validate at h
  split_ifs at h <;> try simp at h
  all_goals
    split at h
    next => simp at h
    next =>
      try (split_ifs at h <;> try simp at h)
      first
      | exact h
      | simp at h

theorem pluginValidate_ok_structure (m : PluginMetadata)
    (h : m.Validate = .ok ()) : validatePluginStructureContent m.structureTree = .ok () := by
  cases hs : validatePluginStructureContent m.structureTree with
  | ok u => cases u; rfl
  | error e =>
    exfalso
    unfold PluginMetadata.Validate at h
    rw [hs] at h
    by_cases c1 : (goTrimSpace m.name == "") = true
    · rw [if_pos c1] at h; exact Except.noConfusion h
    rw [if_neg c1] at h
    by_cases c2 : m.authors.isEmpty = true
    · rw [if_pos c2] at h; exact Except.noConfusion h
    rw [if_neg c2] at h
    by_cases c3 : (m.authors.any (fun a => goTrimSpace a == "")) = true
    · rw [if_pos c3] at h; exact Except.noConfusion h
    rw [if_neg c3] at h
    by_cases c4 : (goTrimSpace m.version == "") = true
    · rw [if_pos c4] at h; exact Except.noConfusion h
    rw [if_neg c4] at h
    by_cases c5 : (goTrimSpace m.description == "") = true
    · rw [if_pos c5] at h; exact Except.noConfusion h
    rw [if_neg c5] at h
    by_cases c6 : (goTrimSpace m.sourceLink == "") = true
    · rw [if_pos c6] at h; exact Except.noConfusion h
    rw [if_neg c6] at h
    cases hp : parseRequestURI m.sourceLink with
    | none => rw [hp] at h; exact Except.noConfusion h
    | some u =>
      rw [hp] at h
      by_cases c7 : (goTrimSpace m.apiVersion == "") = true
      · rw [if_pos c7] at h; exact Except.noConfusion h
      rw [if_neg c7] at h
      by_cases c8 : m.structureTree.isEmpty = true
      · rw [if_pos c8] at h; exact Except.noConfusion h
      rw [if_neg c8] at h
      exact Except.noConfusion h

theorem pluginValidate_ok_sourceLink_ne (m : PluginMetadata)
    (h : m.Validate = .ok ()) : (m.sourceLink == "") = false := by
  by_cases hsl : m.sourceLink = ""
  · exfalso
    unfold PluginMetadata.Validate at h
    rw [hsl] at h
    simp only [show (goTrimSpace "" == "") = true from rfl] at h
    split_ifs at h <;> simp at h
  · simpa using hsl


/-- C1: for every install manifest whose `(sourceLink, version)` pair exactly
matches an entry already present in the kind's state map, Install with
`force = false` returns the already-exists error, performs no filesystem
mutation, and leaves the state map unchanged — for both the theme manager and
the plugin manager. -/
theorem installExactMatchNoForceRejected
    (w : ThemeWorld) (meta : ThemeMetadata) (st : ThemeState) (baseURL : Option GoURL)
    (pw : PluginWorld) (pmeta : PluginMetadata) (pst : PluginState)
    (pbaseURL : Option GoURL) (isLocal : Bool)
    (de : String × InstalledThemeEntry) (dp : String × InstalledPluginEntry)
    (hv : meta.Validate = .ok ())
    (hm : findExactTheme st meta.sourceLink meta.version = some de)
    (hpv : pmeta.Validate = .ok ())
    (hpm : findExactPlugin pst pmeta.sourceLink pmeta.version = some dp) :
    themeInstall w meta false st baseURL = ⟨.error .errorExists, [], st⟩ ∧
      pluginInstall pw pmeta false pst pbaseURL isLocal = ⟨.error .errorExists, [], pst⟩ := by
  obtain ⟨d, e⟩ := de
  obtain ⟨pd, pe⟩ := dp
  constructor
  · unfold themeInstall
    rw [hv]
    unfold determineInstallAction
    rw [hm]
    simp
  · unfold pluginInstall
    rw [hpv]
    rw [if_neg (by simp [pluginValidate_ok_sourceLink_ne pmeta hpv])]
    rw [hpm]
    simp

/-- Witness for C1 at concrete inputs. -/
theorem installExactMatchNoForceRejected_witness :
    themeInstall themeWorldFix themeMetaDot false themeStateFix none
        = ⟨.error .errorExists, [], themeStateFix⟩ ∧
      pluginInstall pluginWorldFix pluginMetaV1 false pluginStateFix none false
        = ⟨.error .errorExists, [], pluginStateFix⟩ :=
  installExactMatchNoForceRejected themeWorldFix themeMetaDot themeStateFix none
    pluginWorldFix pluginMetaV1 pluginStateFix none false
    ("thm_aaa", entryDemoV1) ("plg_aaa", pluginEntryV1)
    (by rfl) (by rfl) (by rfl) (by rfl)


/-- C2 counterexample: `RemovePlugin` deletes the plugin directory from disk
first and saves the state file only afterwards, so the state-file write does
not precede the filesystem deletion for the plugin kind. -/
theorem removePluginDeletesBeforePersist :
    (pluginRemove pluginWorldFix pluginStateFix "plg_aaa").res = .ok () ∧
      (pluginRemove pluginWorldFix pluginStateFix "plg_aaa").events
        = [.removeDirAll "ext/plugins/plg_aaa", .saveState] ∧
      stateSavedBeforeDeletions false
        (pluginRemove pluginWorldFix pluginStateFix "plg_aaa").events = false :=
  ⟨rfl, rfl, rfl⟩

/-- C2 (amended): for a Remove of an installed extension, the theme manager
deletes the state entry and persists the state file before deleting the
directory; the plugin and command managers delete the directory (resp. script
file) from disk first and persist the state afterwards. -/
theorem removeStatePersistOrder
    (w : ThemeWorld) (st : ThemeState) (tid : String) (e : InstalledThemeEntry)
    (pw : PluginWorld) (pst : PluginState) (pid : String) (pe : InstalledPluginEntry)
    (cmds : List (String × CommandMetadata)) (cst : CommandState) (cname : String)
    (cm : CommandMetadata)
    (ht : List.lookup tid st = some e)
    (hp : List.lookup pid pst = some pe)
    (hc : List.lookup cname cmds = some cm)
    (hcs : (List.lookup (baseName cm.filePath) cst).isSome = true) :
    themeRemove w st tid
        = ⟨.ok e.name, [.saveState, .removeDirAll (w.themeDir ++ "/" ++ tid)],
           eraseEntry st tid⟩ ∧
      stateSavedBeforeDeletions false (themeRemove w st tid).events = true ∧
      pluginRemove pw pst pid
        = ⟨.ok (), [.removeDirAll (pw.pluginDir ++ "/" ++ pid), .saveState],
           eraseEntry pst pid⟩ ∧
      stateSavedBeforeDeletions false (pluginRemove pw pst pid).events = false ∧
      commandRemove cmds cst cname
        = ⟨.ok (), [.removeFile cm.filePath, .saveState],
           eraseEntry cst (baseName cm.filePath)⟩ ∧
      stateSavedBeforeDeletions false (commandRemove cmds cst cname).events = false := by
  have h1 : themeRemove w st tid
      = ⟨.ok e.name, [.saveState, .removeDirAll (w.themeDir ++ "/" ++ tid)],
         eraseEntry st tid⟩ := by
    unfold themeRemove; rw [ht]
  have h2 : pluginRemove pw pst pid
      = ⟨.ok (), [.removeDirAll (pw.pluginDir ++ "/" ++ pid), .saveState],
         eraseEntry pst pid⟩ := by
    unfold pluginRemove; rw [hp]
  have h3 : commandRemove cmds cst cname
      = ⟨.ok (), [.removeFile cm.filePath, .saveState],
         eraseEntry cst (baseName cm.filePath)⟩ := by
    unfold commandRemove; rw [hc]; simp [hcs]
  refine ⟨h1, ?_, h2, ?_, h3, ?_⟩ <;>
    simp [h1, h2, h3, stateSavedBeforeDeletions, isDeletionEvent]

/-- Witness for C2 (amended) at concrete inputs. -/
theorem removeStatePersistOrder_witness :
    themeRemove themeWorldFix themeStateFix "thm_aaa"
        = ⟨.ok "Demo", [.saveState, .removeDirAll "ext/themes/thm_aaa"], []⟩ ∧
      stateSavedBeforeDeletions false
        (themeRemove themeWorldFix themeStateFix "thm_aaa").events = true ∧
      pluginRemove pluginWorldFix pluginStateFix "plg_aaa"
        = ⟨.ok (), [.removeDirAll "ext/plugins/plg_aaa", .saveState], []⟩ ∧
      stateSavedBeforeDeletions false
        (pluginRemove pluginWorldFix pluginStateFix "plg_aaa").events = false ∧
      commandRemove commandsMapFix commandStateMatching "backup"
        = ⟨.ok (), [.removeFile "ext/commands/backup.sh", .saveState], []⟩ ∧
      stateSavedBeforeDeletions false
        (commandRemove commandsMapFix commandStateMatching "backup").events = false := by
  have := removeStatePersistOrder themeWorldFix themeStateFix "thm_aaa" entryDemoV1
    pluginWorldFix pluginStateFix "plg_aaa" pluginEntryV1
    commandsMapFix commandStateMatching "backup" commandMetaInstalled
    (by rfl) (by rfl) (by rfl) (by rfl)
  simpa using this


/-- C3 counterexample: `UpdatePlugin` has no remote-is-older no-op.  With
version `2.0.0` installed and the remote manifest at the strictly smaller
version `1.0.0`, the call succeeds but wipes and rewrites the plugin directory
and downgrades the state entry — a mutation where the claim requires none. -/
theorem updatePluginRemoteOlderStillMutates :
    goStringLt "1.0.0" "2.0.0" = true ∧
      pluginUpdate pluginWorldFix (.ok pluginMetaV1) pluginStateFixV2 "plg_aaa" none false
        = ⟨.ok (some pluginMetaV1),
           [.removeDirAll "ext/plugins/plg_aaa", .mkdirAll "ext/plugins/plg_aaa",
            .mkdirAll "ext/plugins/plg_aaa", .writeFile "ext/plugins/plg_aaa/main.js",
            .writeFile "ext/plugins/plg_aaa/plugin.yaml", .saveState],
           [("plg_aaa", ⟨"plg_aaa", "Tool", "1.0.0", "https://example.com/plugin.yaml"⟩)]⟩ ∧
      (pluginUpdate pluginWorldFix (.ok pluginMetaV1) pluginStateFixV2 "plg_aaa" none
          false).events.length = 6 :=
  ⟨rfl, rfl, rfl⟩

/-- C3 (amended): the three-way comparison holds for the theme manager only —
equal versions and a strictly older remote are no-ops returning the local
manifest, and only a greater remote overwrites in place, reusing the local ID
and preserving `installedAt`.  The plugin manager no-ops only on exact
equality and performs the overwrite-update for every differing remote version,
including strictly older ones. -/
theorem updateVersionComparison
    (w : ThemeWorld) (st : ThemeState) (tid : String) (entry : InstalledThemeEntry)
    (rm lm : ThemeMetadata) (baseURL : Option GoURL)
    (pw : PluginWorld) (pst : PluginState) (pid : String) (pentry : InstalledPluginEntry)
    (prm : PluginMetadata) (pbase : Option GoURL) (plocal : Bool)
    (ht : List.lookup tid st = some entry)
    (hsl : (entry.sourceLink == "") = false)
    (hv : rm.Validate = .ok ())
    (hpe : List.lookup pid pst = some pentry)
    (hpv : prm.Validate = .ok ()) :
    (entry.version = rm.version →
      themeUpdate w (.ok rm) (.ok lm) st tid baseURL = ⟨.ok lm, [], st⟩) ∧
      ((entry.version == rm.version) = false →
        goStringLt rm.version entry.version = true →
        themeUpdate w (.ok rm) (.ok lm) st tid baseURL = ⟨.ok lm, [], st⟩) ∧
      (∀ dlEvents, (entry.version == rm.version) = false →
        goStringLt rm.version entry.version = false →
        downloadAndSaveStructure w.env (w.themeDir ++ "/" ++ tid) rm.structureTree baseURL
          = (.ok (), dlEvents) →
        themeUpdate w (.ok rm) (.ok lm) st tid baseURL
          = ⟨.ok { rm with
                   lastUpdatedAt := w.now
                   installedAt :=
                     if entry.installedAt != "" then entry.installedAt else w.now },
             [.removeDirAll (w.themeDir ++ "/" ++ tid), .mkdirAll (w.themeDir ++ "/" ++ tid)]
               ++ dlEvents
               ++ [.writeFile (w.themeDir ++ "/" ++ tid ++ "/theme.json"), .saveState],
             insertEntry st tid
               ⟨tid, rm.name, rm.version, entry.sourceLink,
                if entry.installedAt != "" then entry.installedAt else w.now, w.now⟩⟩) ∧
      (pentry.version = prm.version →
        pluginUpdate pw (.ok prm) pst pid pbase plocal = ⟨.ok none, [], pst⟩) ∧
      (∀ dlE, (pentry.version == prm.version) = false →
        downloadAndSavePluginStructure pw.env (pw.pluginDir ++ "/" ++ pid) prm.structureTree
            pbase plocal
          = (.ok (), dlE) →
        pluginUpdate pw (.ok prm) pst pid pbase plocal
          = ⟨.ok (some prm),
             [.removeDirAll (pw.pluginDir ++ "/" ++ pid), .mkdirAll (pw.pluginDir ++ "/" ++ pid)]
               ++ dlE
               ++ [.writeFile (pw.pluginDir ++ "/" ++ pid ++ "/plugin.yaml"), .saveState],
             insertEntry pst pid ⟨pid, prm.name, prm.version, pentry.sourceLink⟩⟩) := by
  refine ⟨?_, ?_, ?_, ?_, ?_⟩
  · intro heq
    unfold themeUpdate
    rw [ht]
    simp [hsl, hv, heq]
  · intro hne hlt
    unfold themeUpdate
    rw [ht]
    simp [hsl, hv, hne, hlt]
  · intro dlEvents hne hlt hdl
    unfold themeUpdate
    rw [ht]
    simp [hsl, hv, hne, hlt, hdl]
  · intro heq
    unfold pluginUpdate
    rw [hpe]
    simp [hpv, heq]
  · intro dlE hne hdl
    unfold pluginUpdate
    rw [hpe]
    simp [hpv, hne, hdl]


/-- Witness for C3 (amended) at concrete inputs: an equal-version theme update
no-ops, and a differing-version plugin update overwrites in place. -/
theorem updateVersionComparison_witness :
    themeUpdate themeWorldFix (.ok themeMetaDot) (.ok themeMetaDot) themeStateFix "thm_aaa" none
        = ⟨.ok themeMetaDot, [], themeStateFix⟩ ∧
      pluginUpdate pluginWorldFix (.ok pluginMetaV1) pluginStateFixV2 "plg_aaa" none false
        = ⟨.ok (some pluginMetaV1),
           [.removeDirAll "ext/plugins/plg_aaa", .mkdirAll "ext/plugins/plg_aaa"]
             ++ [.mkdirAll "ext/plugins/plg_aaa", .writeFile "ext/plugins/plg_aaa/main.js"]
             ++ [.writeFile "ext/plugins/plg_aaa/plugin.yaml", .saveState],
           insertEntry pluginStateFixV2 "plg_aaa" ⟨"plg_aaa", "Tool", "1.0.0",
             "https://example.com/plugin.yaml"⟩⟩ := by
  have h := updateVersionComparison themeWorldFix themeStateFix "thm_aaa" entryDemoV1
    themeMetaDot themeMetaDot none pluginWorldFix pluginStateFixV2 "plg_aaa" pluginEntryV2
    pluginMetaV1 none false (by rfl) (by rfl) (by rfl) (by rfl) (by rfl)
  exact ⟨h.1 rfl,
    h.2.2.2.2 [.mkdirAll "ext/plugins/plg_aaa", .writeFile "ext/plugins/plg_aaa/main.js"]
      (by rfl) (by rfl)⟩


/-- C4: a force install over an exact `(sourceLink, version)` match reuses the
matched entry's local ID as the target directory, keeps the original
`installedAt` (when non-empty) in both the returned manifest and the new state
entry, and stamps `lastUpdatedAt` with the time of this install. -/
theorem forceInstallReusesIdentity
    (w : ThemeWorld) (meta : ThemeMetadata) (st : ThemeState) (baseURL : Option GoURL)
    (d : String) (e : InstalledThemeEntry) (dlEvents : List FsEvent)
    (hv : meta.Validate = .ok ())
    (hm : findExactTheme st meta.sourceLink meta.version = some (d, e))
    (hlk : List.lookup d st = some e)
    (hia : (e.installedAt != "") = true)
    (hdl : downloadAndSaveStructure w.env (w.themeDir ++ "/" ++ d)
        meta.structureTree baseURL = (.ok (), dlEvents)) :
    themeInstall w meta true st baseURL
      = ⟨.ok { meta with installedAt := e.installedAt, lastUpdatedAt := w.now },
         [.removeDirAll (w.themeDir ++ "/" ++ d), .mkdirAll (w.themeDir ++ "/" ++ d)]
           ++ dlEvents
           ++ [.writeFile (w.themeDir ++ "/" ++ d ++ "/theme.json"), .saveState],
         insertEntry st d
           ⟨d, meta.name, meta.version, meta.sourceLink, e.installedAt, w.now⟩⟩ := by
  unfold themeInstall
  rw [hv]
  unfold determineInstallAction
  rw [hm]
  simp [hlk, hia, hdl]

/-- Witness for C4 at concrete inputs. -/
theorem forceInstallReusesIdentity_witness :
    themeInstall themeWorldFix themeMetaDot true themeStateFix none
      = ⟨.ok { themeMetaDot with
               installedAt := "2025-01-01T00:00:00Z"
               lastUpdatedAt := "2026-10-11T00:00:00Z" },
         [.removeDirAll "ext/themes/thm_aaa", .mkdirAll "ext/themes/thm_aaa"]
           ++ [.mkdirAll "ext/themes/thm_aaa", .writeFile "ext/themes/thm_aaa/index.html"]
           ++ [.writeFile "ext/themes/thm_aaa/theme.json", .saveState],
         insertEntry themeStateFix "thm_aaa"
           ⟨"thm_aaa", "Demo", "1.0.0", "https://example.com/theme.yaml",
            "2025-01-01T00:00:00Z", "2026-10-11T00:00:00Z"⟩⟩ :=
  forceInstallReusesIdentity themeWorldFix themeMetaDot themeStateFix none
    "thm_aaa" entryDemoV1
    [.mkdirAll "ext/themes/thm_aaa", .writeFile "ext/themes/thm_aaa/index.html"]
    (by rfl) (by rfl) (by rfl) (by rfl) (by rfl)


theorem themeAssetStep_mismatch (env : DlEnv) (savePath : String)
    (baseURL : Option GoURL) (url sum e a : String) (evs : List FsEvent)
    (h : themeAssetStep env savePath baseURL url sum = (.error (.checksumMismatch e a), evs)) :
    equalFold a e = false ∧ e = sum ∧ a = env.bodySum ((resolveThemeAssetURL baseURL url).getD url) ∧
      evs = [FsEvent.mkdirAll (dirOf savePath), FsEvent.writeFile savePath,
             FsEvent.removeFile savePath] := by
  unfold themeAssetStep at h
  split at h
  next => simp at h
  next u hu =>
    by_cases h1 : env.statusOK u
    · by_cases h2 : equalFold (env.bodySum u) sum
      · simp [h1, h2] at h
      · simp only [h1, Bool.not_true, Bool.false_eq_true, if_false, eq_self_iff_true,
          Bool.not_eq_true] at h
        rw [if_pos (by simp [Bool.not_eq_true] at h2 ⊢; exact h2)] at h
        simp only [Prod.mk.injEq, Except.error.injEq, Err.checksumMismatch.injEq] at h
        obtain ⟨⟨he, ha⟩, hevs⟩ := h
        subst he; subst ha
        refine ⟨by simpa using h2, rfl, by rw [hu]; rfl, by simp [← hevs]⟩
    · simp [h1] at h


mutual

theorem themeDownloadItem_mismatch (env : DlEnv) (savePath : String)
    (baseURL : Option GoURL) (v : GoVal) (e a : String) (evs : List FsEvent)
    (h : themeDownloadItem env savePath baseURL v = (.error (.checksumMismatch e a), evs)) :
    equalFold a e = false ∧
      ∃ evs0 p, evs = evs0 ++ [FsEvent.writeFile p, FsEvent.removeFile p] := by
  match v with
  | .assetDetail url sum =>
    simp only [themeDownloadItem] at h
    obtain ⟨h1, _, _, hevs⟩ := themeAssetStep_mismatch env savePath baseURL url sum e a evs h
    exact ⟨h1, [FsEvent.mkdirAll (dirOf savePath)], savePath, by simp [hevs]⟩
  | .obj sub =>
    simp only [themeDownloadItem] at h
    split at h
    next url sum hu hs =>
      obtain ⟨h1, _, _, hevs⟩ := themeAssetStep_mismatch env savePath baseURL url sum e a evs h
      exact ⟨h1, [FsEvent.mkdirAll (dirOf savePath)], savePath, by simp [hevs]⟩
    next =>
      simp only [Prod.mk.injEq] at h
      obtain ⟨hr, hevs⟩ := h
      obtain ⟨h1, evs0, p, h2⟩ :=
        downloadAndSaveStructure_mismatch env savePath sub baseURL e a
          (downloadAndSaveStructure env savePath sub baseURL).2 (by rw [← hr])
      exact ⟨h1, FsEvent.mkdirAll savePath :: evs0, p, by simp [← hevs, h2]⟩
    next =>
      simp only [Prod.mk.injEq] at h
      obtain ⟨hr, hevs⟩ := h
      obtain ⟨h1, evs0, p, h2⟩ :=
        downloadAndSaveStructure_mismatch env savePath sub baseURL e a
          (downloadAndSaveStructure env savePath sub baseURL).2 (by rw [← hr])
      exact ⟨h1, FsEvent.mkdirAll savePath :: evs0, p, by simp [← hevs, h2]⟩
  | .str s => simp [themeDownloadItem] at h
  | .other => simp [themeDownloadItem] at h

theorem downloadAndSaveStructure_mismatch (env : DlEnv) (base : String)
    (fields : GoFields) (baseURL : Option GoURL) (e a : String) (evs : List FsEvent)
    (h : downloadAndSaveStructure env base fields baseURL
      = (.error (.checksumMismatch e a), evs)) :
    equalFold a e = false ∧
      ∃ evs0 p, evs = evs0 ++ [FsEvent.writeFile p, FsEvent.removeFile p] := by
  match fields with
  | .nil => simp [downloadAndSaveStructure] at h
  | .cons name v rest =>
    simp only [downloadAndSaveStructure] at h
    split at h
    next e2 evs2 hitem =>
      simp only [Prod.mk.injEq, Except.error.injEq] at h
      obtain ⟨he2, hevs⟩ := h
      subst he2
      obtain ⟨h1, evs0, p, h2⟩ :=
        themeDownloadItem_mismatch env (base ++ "/" ++ name) baseURL v e a evs2 hitem
      exact ⟨h1, evs0, p, by rw [← hevs, h2]⟩
    next evs2 hitem =>
      simp only [Prod.mk.injEq] at h
      obtain ⟨hr, hevs⟩ := h
      obtain ⟨h1, evs0, p, h2⟩ :=
        downloadAndSaveStructure_mismatch env base rest baseURL e a
          (downloadAndSaveStructure env base rest baseURL).2 (by rw [← hr])
      exact ⟨h1, evs2 ++ evs0, p, by simp [← hevs, h2]⟩

end


/-- C5: when the asset download phase of a theme install fails with a checksum
mismatch, the install aborts with that error carrying the declared (expected)
and computed (actual) sums and no entry is added to the state map — for every
install action: a new install (no exact match in state, any force) also
removes the created directory as the final step before returning, while a
force overwrite over an exact match aborts without cleanup, exactly as the
code does.  In either case the failing asset's trace ends with the file write
followed by its removal: the partly-written file is gone. -/
theorem checksumMismatchAbortsInstall
    (w : ThemeWorld) (meta : ThemeMetadata) (st : ThemeState) (baseURL : Option GoURL)
    (e a : String) (dlEvents : List FsEvent)
    (hv : meta.Validate = .ok ()) :
    (∀ force, findExactTheme st meta.sourceLink meta.version = none →
      downloadAndSaveStructure w.env (w.themeDir ++ "/" ++ w.newID)
          meta.structureTree baseURL = (.error (.checksumMismatch e a), dlEvents) →
      themeInstall w meta force st baseURL
        = ⟨.error (.checksumMismatch e a),
           [FsEvent.mkdirAll (w.themeDir ++ "/" ++ w.newID)] ++ dlEvents
             ++ [FsEvent.removeDirAll (w.themeDir ++ "/" ++ w.newID)], st⟩) ∧
      (∀ d en, findExactTheme st meta.sourceLink meta.version = some (d, en) →
        downloadAndSaveStructure w.env (w.themeDir ++ "/" ++ d)
            meta.structureTree baseURL = (.error (.checksumMismatch e a), dlEvents) →
        themeInstall w meta true st baseURL
          = ⟨.error (.checksumMismatch e a),
             [FsEvent.removeDirAll (w.themeDir ++ "/" ++ d),
              FsEvent.mkdirAll (w.themeDir ++ "/" ++ d)] ++ dlEvents, st⟩) ∧
      (∀ base, downloadAndSaveStructure w.env base meta.structureTree baseURL
          = (.error (.checksumMismatch e a), dlEvents) →
        equalFold a e = false ∧
          ∃ evs0 p, dlEvents = evs0 ++ [FsEvent.writeFile p, FsEvent.removeFile p]) := by
  refine ⟨?_, ?_, fun base hdl => downloadAndSaveStructure_mismatch _ _ _ _ _ _ _ hdl⟩
  · intro force hnf hdl
    unfold themeInstall
    rw [hv]
    unfold determineInstallAction
    rw [hnf]
    simp [hdl]
  · intro d en hm hdl
    unfold themeInstall
    rw [hv]
    unfold determineInstallAction
    rw [hm]
    cases hlk : List.lookup d st with
    | none => simp [hlk, hdl]
    | some en2 =>
      by_cases hia : (en2.installedAt != "") = true
      · simp [hlk, hia, hdl]
      · simp [hlk, hia, hdl]

/-- Witness for C5 at concrete inputs: the environment serves bodies hashing
to 64 `b`s while the manifest declares 64 `a`s; both a new install and a
force overwrite over the exact match abort without touching the state. -/
theorem checksumMismatchAbortsInstall_witness :
    themeInstall themeWorldFixB themeMetaDot false [] none
        = ⟨.error (.checksumMismatch sumAllA sumAllB),
           [FsEvent.mkdirAll "ext/themes/thm_new01"]
             ++ [FsEvent.mkdirAll "ext/themes/thm_new01",
                 FsEvent.writeFile "ext/themes/thm_new01/index.html",
                 FsEvent.removeFile "ext/themes/thm_new01/index.html"]
             ++ [FsEvent.removeDirAll "ext/themes/thm_new01"], []⟩ ∧
      themeInstall themeWorldFixB themeMetaDot true themeStateFix none
        = ⟨.error (.checksumMismatch sumAllA sumAllB),
           [FsEvent.removeDirAll "ext/themes/thm_aaa", FsEvent.mkdirAll "ext/themes/thm_aaa"]
             ++ [FsEvent.mkdirAll "ext/themes/thm_aaa",
                 FsEvent.writeFile "ext/themes/thm_aaa/index.html",
                 FsEvent.removeFile "ext/themes/thm_aaa/index.html"], themeStateFix⟩ ∧
      equalFold sumAllB sumAllA = false :=
  ⟨(checksumMismatchAbortsInstall themeWorldFixB themeMetaDot [] none
      sumAllA sumAllB
      [FsEvent.mkdirAll "ext/themes/thm_new01",
       FsEvent.writeFile "ext/themes/thm_new01/index.html",
       FsEvent.removeFile "ext/themes/thm_new01/index.html"]
      (by rfl)).1 false (by rfl) (by rfl),
    (checksumMismatchAbortsInstall themeWorldFixB themeMetaDot themeStateFix none
      sumAllA sumAllB
      [FsEvent.mkdirAll "ext/themes/thm_aaa",
       FsEvent.writeFile "ext/themes/thm_aaa/index.html",
       FsEvent.removeFile "ext/themes/thm_aaa/index.html"]
      (by rfl)).2.1 "thm_aaa" entryDemoV1 (by rfl) (by rfl),
    by rfl⟩


/-- C6 counterexample: a manifest whose leaf checksum is written with
uppercase hex digits passes validation, because the validator lowercases the
sum before matching `^[a-f0-9]{64}$` — the claim that any such manifest is
rejected is false. -/
theorem uppercaseSumAccepted :
    sumUpper.data.any (fun c => decide ('A' ≤ c) && decide (c ≤ 'F')) = true ∧
      sumFormatOk sumUpper = true ∧
      themeMetaUpper.Validate = .ok () :=
  ⟨rfl, rfl, rfl⟩

/-- C6 (amended): validation fails whenever some asset leaf's checksum is not
64 hexadecimal characters after ASCII case folding; checksums containing
uppercase hex digits are folded and accepted. -/
theorem badSumRejected (m : ThemeMetadata)
    (hbad : fieldsHasBadSum m.structureTree = true) : m.Validate ≠ .ok () := by
  intro h
  have hok := validateStructureContent_ok_noBadSum m.structureTree
    (themeValidate_ok_structure m h)
  rw [hok] at hbad
  exact Bool.false_ne_true hbad

/-- Witness for C6 (amended): a 6-character sum is rejected. -/
theorem badSumRejected_witness :
    fieldsHasBadSum themeMetaShortSum.structureTree = true ∧
      themeMetaShortSum.Validate ≠ .ok () :=
  ⟨rfl, badSumRejected themeMetaShortSum rfl⟩

/-- C7 counterexample: structure-tree names *containing* `.` or `..` are
accepted — `index.html` and `a..b` both validate, and the `a..b` install
proceeds to write the filesystem; only names exactly `.` or `..` (or
containing a separator) are rejected. -/
theorem nameContainingDotsAccepted :
    "index.html" = "index" ++ "." ++ "html" ∧
      "a..b" = "a" ++ ".." ++ "b" ∧
      themeMetaDot.Validate = .ok () ∧
      themeMetaDots.Validate = .ok () ∧
      (themeInstall themeWorldFix themeMetaDots false [] none).events.length = 5 :=
  ⟨rfl, rfl, rfl, rfl, rfl⟩

/-- C7 (amended): a structure-tree name that contains a path separator
(`/` or `\`) or is exactly `.` or `..` is rejected recursively at every level
by both the theme and the plugin validators, and the corresponding installs
return the validation failure with no filesystem event emitted. -/
theorem badNameRejectedBeforeWrite
    (m : ThemeMetadata) (pm : PluginMetadata)
    (w : ThemeWorld) (st : ThemeState) (force : Bool) (baseURL : Option GoURL)
    (pw : PluginWorld) (pst : PluginState) (pbase : Option GoURL) (plocal : Bool)
    (hbad : fieldsHasBadName m.structureTree = true)
    (hpbad : pluginFieldsHasBadName pm.structureTree = true) :
    m.Validate ≠ .ok () ∧
      pm.Validate ≠ .ok () ∧
      (∃ er, themeInstall w m force st baseURL = ⟨.error er, [], st⟩) ∧
      (∃ er, pluginInstall pw pm force pst pbase plocal = ⟨.error er, [], pst⟩) := by
  have hmv : m.Validate ≠ .ok () := by
    intro h
    have hok := validateStructureContent_ok_noBadName m.structureTree
      (themeValidate_ok_structure m h)
    rw [hok] at hbad
    exact Bool.false_ne_true hbad
  have hpv : pm.Validate ≠ .ok () := by
    intro h
    have hok := validatePluginStructureContent_ok_noBadName pm.structureTree
      (pluginValidate_ok_structure pm h)
    rw [hok] at hpbad
    exact Bool.false_ne_true hpbad
  refine ⟨hmv, hpv, ?_, ?_⟩
  · cases hv : m.Validate with
    | error e => exact ⟨e, by unfold themeInstall; rw [hv]⟩
    | ok u => cases u; exact absurd hv hmv
  · cases hv : pm.Validate with
    | error e => exact ⟨e, by unfold pluginInstall; rw [hv]⟩
    | ok u => cases u; exact absurd hv hpv

/-- Witness for C7 (amended): a subdirectory named `..` and a nested file
name containing `/` are both rejected without any filesystem event. -/
theorem badNameRejectedBeforeWrite_witness :
    fieldsHasBadName themeMetaDotDotDir.structureTree = true ∧
      themeMetaDotDotDir.Validate ≠ .ok () ∧
      pluginMetaBadName.Validate ≠ .ok () ∧
      (∃ er, themeInstall themeWorldFix themeMetaDotDotDir false [] none
        = ⟨.error er, [], []⟩) := by
  have h := badNameRejectedBeforeWrite themeMetaDotDotDir pluginMetaBadName
    themeWorldFix [] false none pluginWorldFix [] none false rfl rfl
  exact ⟨rfl, h.1, h.2.1, h.2.2.1⟩


/-- C8 counterexample: the 1 MiB cap is specific to the plugin manager and is
off by one — a plugin manifest body of exactly `maxYAMLSize` (1 MiB, within
the claimed "at most 1 MiB succeeds" range) is rejected, while theme and
command manifest fetches read bodies of any size (2 MiB here) without error. -/
theorem manifestSizeCapClaimFalse :
    maxYAMLSize = 1048576 ∧
      fetchPluginYAMLBody 1048576 = .error .fetchFailed ∧
      fetchThemeYAMLBody 2097152 = .ok 2097152 ∧
      fetchCommandScriptBody 2097152 = .ok 2097152 :=
  ⟨rfl, rfl, rfl, rfl⟩

/-- C8 (amended): only the plugin manifest fetch is size-limited, and there
the limited reader rejects every body of 1 MiB or more (strictly smaller
bodies are read in full); theme and command manifest fetches are uncapped. -/
theorem manifestSizeCapAmended (n : Nat) :
    fetchPluginYAMLBody n = (if maxYAMLSize ≤ n then .error .fetchFailed else .ok n) ∧
      fetchThemeYAMLBody n = .ok n ∧
      fetchCommandScriptBody n = .ok n := by
  refine ⟨?_, rfl, rfl⟩
  by_cases hle : maxYAMLSize ≤ n
  · have h1 : min n maxYAMLSize = maxYAMLSize := min_eq_right hle
    simp [fetchPluginYAMLBody, h1, hle]
  · have hlt : n < maxYAMLSize := Nat.lt_of_not_le hle
    have h1 : min n maxYAMLSize = n := min_eq_left (Nat.le_of_lt hlt)
    have h2 : (maxYAMLSize - n == 0) = false := by
      simp only [Nat.beq_eq_true_eq, beq_eq_false_iff_ne, ne_eq]
      omega
    simp [fetchPluginYAMLBody, h1, h2, hle]


/-- C9: a command install whose derived filename (`command name + ".sh"`) is
already held in the state map by an entry with a different source link fails
with the conflict error regardless of force, mutating neither the script file
nor the state map; and any install that does write over an existing filename
entry had an exact sourceLink+version match with force set. -/
theorem commandFilenameConflictHard
    (w : CommandWorld) (meta : CommandMetadata) (force : Bool) (st : CommandState)
    (existing : InstalledCommandEntry)
    (hsep : containsPathSep (meta.command ++ ".sh") = false)
    (hlk : List.lookup (meta.command ++ ".sh") st = some existing)
    (hne : (existing.sourceLink == meta.sourceLink) = false) :
    commandInstall w meta force st = ⟨.error .errorConflict, [], st⟩ ∧
      (∀ (meta2 : CommandMetadata) (force2 : Bool) (st2 : CommandState)
          (ex2 : InstalledCommandEntry) (r : CommandMetadata),
        List.lookup (meta2.command ++ ".sh") st2 = some ex2 →
        (commandInstall w meta2 force2 st2).res = .ok r →
        (ex2.sourceLink == meta2.sourceLink) = true ∧
          (ex2.version == meta2.version) = true ∧ force2 = true) := by
  constructor
  · unfold commandInstall
    rw [if_neg (by simp [hsep])]
    rw [hlk]
    simp [hne]
  · intro meta2 force2 st2 ex2 r hlk2 hres
    by_cases hsep2 : containsPathSep (meta2.command ++ ".sh") = true
    · simp [commandInstall, hsep2] at hres
    · by_cases hx1 : (ex2.sourceLink == meta2.sourceLink) = true
      · by_cases hx2 : (ex2.version == meta2.version) = true
        · refine ⟨hx1, hx2, ?_⟩
          by_cases hf : force2
          · exact hf
          · exfalso
            simp [commandInstall, hsep2, hlk2, hx1, hx2, hf] at hres
        · exfalso
          simp [commandInstall, hsep2, hlk2, hx1,
            (by simpa using hx2 : (ex2.version == meta2.version) = false)] at hres
      · exfalso
        simp [commandInstall, hsep2, hlk2,
          (by simpa using hx1 : (ex2.sourceLink == meta2.sourceLink) = false)] at hres

/-- Witness for C9 at concrete inputs: `backup.sh` is held by an entry from a
different source, and a forced install still fails with the conflict error. -/
theorem commandFilenameConflictHard_witness :
    commandInstall ⟨"ext/commands"⟩ commandMetaFix true commandStateFix
      = ⟨.error .errorConflict, [], commandStateFix⟩ :=
  (commandFilenameConflictHard ⟨"ext/commands"⟩ commandMetaFix true commandStateFix
    commandEntryOther (by rfl) (by rfl) (by rfl)).1


theorem decodeThemeEntry_encode (e : InstalledThemeEntry) :
    decodeThemeEntry (encodeThemeEntry e) = some e := by
  cases e with
  | mk thmID name version sourceLink installedAt lastUpdatedAt =>
    by_cases h1 : installedAt = "" <;> by_cases h2 : lastUpdatedAt = "" <;>
      simp [encodeThemeEntry, decodeThemeEntry, getStrField, List.lookup, h1, h2]

theorem decodeThemeEntries_encode (m : List (String × InstalledThemeEntry)) :
    decodeThemeEntries (m.map (fun p => (p.1, encodeThemeEntry p.2))) = some m := by
  induction m with
  | nil => rfl
  | cons p rest ih =>
    cases p with
    | mk k e =>
      simp [decodeThemeEntries, decodeThemeEntry_encode, ih]

/-- C10: saving a themes state map (wrapping it under the `themes` key) and
loading it back returns the same map, for every map including the empty one; a
missing or empty state file loads as the empty map, and a `null` inner map is
guarded to the empty map rather than a nil one. -/
theorem stateStoreRoundTrip (m : List (String × InstalledThemeEntry)) :
    loadState (.content (saveThemesState m)) = some m ∧
      loadState .missing = some [] ∧
      loadState .empty = some [] ∧
      loadState (.content (.obj [("themes", .null)])) = some [] := by
  refine ⟨?_, rfl, rfl, rfl⟩
  simp [loadState, saveThemesState, encodeThemeMap, decodeThemeStore,
    decodeThemeStoreFields, decodeThemeMap, decodeThemeEntries_encode]

end PanelBase
